import Mathlib

/-!
Verification of the MCP local relay (capability registration and forwarding
engine) against its natural-language specification.

The TypeScript sources are shallowly embedded: JavaScript runtime values that
flow through the relay are modelled by the inductive type `Json` (with
`undefined` and `null` merged into `Json.jnull`, which is adequate here because
the code only distinguishes them through truthiness and nullish coalescing),
strings are modelled as Lean `String` (a list of characters; this is faithful
for all code points of the basic multilingual plane), and each remote HTTP
interaction is modelled by an explicit outcome value injected into the pure
function that embeds the handler.
-/

/-- JavaScript/JSON runtime values. `jnull` stands for both `null` and
`undefined`. Numbers are modelled as integers: no claim under verification
depends on non-integral numeric values. -/
inductive Json where
  | jnull : Json
  | jbool : Bool → Json
  | jnum : Int → Json
  | jstr : String → Json
  | jarr : List Json → Json
  | jobj : List (String × Json) → Json

/-- JavaScript truthiness of a value (`if (v)`). Objects and arrays are always
truthy; `""`, `0`, `false`, `null`/`undefined` are falsy. -/
def jsTruthy : Json → Bool
  | .jnull => false
  | .jbool b => b
  | .jnum n => n != 0
  | .jstr s => s != ""
  | .jarr _ => true
  | .jobj _ => true

/-- Property access `v[k]` on a JavaScript value: member lookup on objects,
`undefined` (here `jnull`) on everything else. -/
def jGet (v : Json) (k : String) : Json :=
  match v with
  | .jobj kvs =>
    match kvs.find? (fun kv => kv.1 == k) with
    | some kv => kv.2
    | none => .jnull
  | _ => .jnull

/-- Whether a value is nullish (`null` or `undefined`), as tested by `??`. -/
def Json.isNullish : Json → Bool
  | .jnull => true
  | _ => false

/-- Whether `typeof v === "string"`. -/
def Json.isStr : Json → Bool
  | .jstr _ => true
  | _ => false

/-- The underlying string of a string value (dummy `""` otherwise; only used
under an `isStr` guard, mirroring the `typeof` checks in the source). -/
def Json.asStr : Json → String
  | .jstr s => s
  | _ => ""

/-- Whether `Array.isArray(v)`. -/
def Json.isArr : Json → Bool
  | .jarr _ => true
  | _ => false

/-- The element list of an array value (dummy `[]` otherwise; only used under
an `isArr` guard). -/
def Json.asArr : Json → List Json
  | .jarr l => l
  | _ => []

/-- Whether `typeof v === "object"` (objects, arrays and `null`). -/
def Json.isObjLike : Json → Bool
  | .jobj _ => true
  | .jarr _ => true
  | .jnull => true
  | _ => false

mutual

/-- JavaScript string conversion `String(v)`, as performed by template-literal
interpolation. Arrays print their elements separated by commas with nullish
elements printed as empty (the `Array.prototype.toString` behaviour); plain
objects print as `[object Object]`. -/
def jsToString : Json → String
  | .jnull => "null"
  | .jbool b => if b then "true" else "false"
  | .jnum n => toString n
  | .jstr s => s
  | .jarr l => jsToStringArr l
  | .jobj _ => "[object Object]"

/-- Comma-joined rendering of array elements for `jsToString`. -/
def jsToStringArr : List Json → String
  | [] => ""
  | [x] => match x with
    | .jnull => ""
    | v => jsToString v
  | x :: y :: rest =>
    (match x with
     | .jnull => ""
     | v => jsToString v) ++ "," ++ jsToStringArr (y :: rest)

end

/-- Minimal JSON string escaping used by `jsonStringify` (quotes and
backslashes; sufficient for every string this development evaluates). -/
def jsonEscape (s : String) : String :=
  ⟨s.data.flatMap (fun c =>
    if c = '"' then ['\\', '"']
    else if c = '\\' then ['\\', '\\']
    else [c])⟩

mutual

/-- Model of `JSON.stringify` on the values representable by `Json`
(`undefined` is serialised as `null`, consistently with the merge of the two
in this model). -/
def jsonStringify : Json → String
  | .jnull => "null"
  | .jbool b => if b then "true" else "false"
  | .jnum n => toString n
  | .jstr s => "\"" ++ jsonEscape s ++ "\""
  | .jarr l => "[" ++ jsonStringifyArr l ++ "]"
  | .jobj kvs => "\x7b" ++ jsonStringifyObj kvs ++ "\x7d"

/-- Comma-joined serialisation of array elements. -/
def jsonStringifyArr : List Json → String
  | [] => ""
  | [x] => jsonStringify x
  | x :: y :: rest => jsonStringify x ++ "," ++ jsonStringifyArr (y :: rest)

/-- Comma-joined serialisation of object members. -/
def jsonStringifyObj : List (String × Json) → String
  | [] => ""
  | [kv] => "\"" ++ jsonEscape kv.1 ++ "\":" ++ jsonStringify kv.2
  | kv :: kv2 :: rest =>
    "\"" ++ jsonEscape kv.1 ++ "\":" ++ jsonStringify kv.2 ++ "," ++
      jsonStringifyObj (kv2 :: rest)

end

/-- JavaScript `s.substring(0, n)`: the first `n` characters of `s`. -/
def jsSubstring (s : String) (n : Nat) : String :=
  ⟨s.data.take n⟩

/-- Characters legal in a local capability identifier: `[A-Za-z0-9_-]`. -/
def isIdentChar (c : Char) : Bool :=
  c.isAlpha || c.isDigit || c = '_' || c = '-'

/-- Embedding of `sanitize` from `src/index.ts`
(`name.replace(/[^a-zA-Z0-9_-]/g, "_").substring(0, 64)`): replace every
character outside `[A-Za-z0-9_-]` by an underscore, then truncate to the
first 64 characters. -/
def sanitize (name : String) : String :=
  jsSubstring ⟨name.data.map (fun c => if isIdentChar c then c else '_')⟩ 64

/-- Embedding of the `DbToolParameter` interface: a remote parameter
descriptor. `description` is `string | null` and `type` may be absent at
runtime (the source guards it with optional chaining), so both are `Option`. -/
structure DbToolParameter where
  name : String
  description : Option String
  type : Option String
  required : Bool
deriving DecidableEq

/-- Embedding of the `RelayToolDefinition` interface. -/
structure RelayToolDefinition where
  id : String
  name : String
  slug : String
  description : Option String
  parameters : List DbToolParameter
deriving DecidableEq

/-- Embedding of the `RelayServerDefinition` interface. -/
structure RelayServerDefinition where
  id : String
  name : String
  description : Option String
  tools : List RelayToolDefinition
deriving DecidableEq

/-- Embedding of the SDK `Resource` shape as used by the relay: a display
name and the stable URI key. -/
structure ResourceDefinition where
  name : String
  uri : String
deriving DecidableEq

/-- Embedding of the `PromptArgument` interface. -/
structure PromptArgument where
  name : String
  description : Option String
  required : Bool
deriving DecidableEq

/-- Embedding of the `PromptDefinition` interface. -/
structure PromptDefinition where
  name : String
  description : Option String
  arguments : List PromptArgument
deriving DecidableEq

/-- One content item of a local tool response; the relay only ever builds
items with `type := "text"`. -/
structure ContentItem where
  type : String
  text : String

/-- The envelope returned by the tool-forwarding handler
(`{content, isError}`). `isError` is kept as a `Json` value because the source
passes the remote value through untyped (`response.data.isError ?? false`). -/
structure ToolEnvelope where
  content : List ContentItem
  isError : Json

/-- Outcome of the remote `POST .../execute` call made by `forwardToolCall`,
as discriminated by the catch block of the source: a resolved response with a
body, an axios error with a response (HTTP error status), an axios error with
a request but no response (timeout or network failure), an axios error thrown
during request setup, or a non-axios exception. -/
inductive RemoteOutcome where
  | success (data : Json)
  | errorResponse (status : Nat) (data : Json)
  | errorNoResponse
  | errorSetup (message : String)
  | errorGeneric (message : String)

/-- Whether the remote call failed (entered the catch block). -/
def RemoteOutcome.isFailure : RemoteOutcome → Bool
  | .success _ => false
  | _ => true

/-- The `errorMessage` variable of the catch block in `forwardToolCall`:
names the tool slug, and the HTTP status when a response was received. -/
def toolErrorMessage (toolSlug : String) : RemoteOutcome → String
  | .errorResponse status _ =>
    "Error executing tool \x27" ++ toolSlug ++ "\x27 (Status: " ++
      toString status ++ ")."
  | _ => "Error executing tool \x27" ++ toolSlug ++ "\x27."

/-- The `Server Error: ...` detail for an axios error that carried a
response: `error.response.data?.error || error.response.data?.details ||
JSON.stringify(error.response.data)`, interpolated into a template literal. -/
def serverErrorDetail (data : Json) : String :=
  "Server Error: " ++
    (if jsTruthy (jGet data "error") then jsToString (jGet data "error")
     else if jsTruthy (jGet data "details") then jsToString (jGet data "details")
     else jsonStringify data)

/-- The `detailText` variable of the catch block in `forwardToolCall`.
The initial value (`Relay failed to communicate with the execution server.`)
is returned for the `success` constructor only because the function must be
total; every failure constructor overwrites it exactly as the source does. -/
def toolErrorDetail : RemoteOutcome → String
  | .errorResponse _ data => serverErrorDetail data
  | .errorNoResponse =>
    "No response received from the execution server (timeout or network issue)."
  | .errorSetup message => "Axios error: " ++ message
  | .errorGeneric message => message
  | .success _ => "Relay failed to communicate with the execution server."

/-- The full error text before truncation:
`` `${errorMessage} ${detailText}` ``. -/
def toolErrorText (toolSlug : String) (o : RemoteOutcome) : String :=
  toolErrorMessage toolSlug o ++ " " ++ toolErrorDetail o

/-- Nullish coalescing against `false`: `v ?? false`. -/
def jsCoalesceFalse (v : Json) : Json :=
  if v.isNullish then .jbool false else v

/-- Embedding of `forwardToolCall` from `src/index.ts`, as a pure function of
the outcome of the single remote call it performs. On a resolved response it
checks `response.data && typeof response.data.result === "string"`, wrapping
the result string (success) or a fixed invalid-format message (malformed
body); in the catch block it builds the error text and truncates the whole of
it to 1000 characters. Every branch returns an envelope; nothing is thrown. -/
def forwardToolCall (toolSlug : String) (o : RemoteOutcome) : ToolEnvelope :=
  match o with
  | .success data =>
    if jsTruthy data && (jGet data "result").isStr then
      ⟨[⟨"text", (jGet data "result").asStr⟩], jsCoalesceFalse (jGet data "isError")⟩
    else
      ⟨[⟨"text", "Error: Invalid response format from tool execution server."⟩],
        .jbool true⟩
  | o =>
    ⟨[⟨"text", jsSubstring (toolErrorText toolSlug o) 1000⟩], .jbool true⟩

/-- Embedding of the scoped-mode tool registration loop of `src/index.ts`
(`main`, dynamic tool registration): each tool is registered under
`sanitize(toolDef.name)` and its handler forwards to
`(targetServerId, toolDef.slug)`; a tool whose sanitized name is empty is
skipped (`continue`) and the loop carries on with the remaining tools. The
result lists the bindings `(localIdentifier, remoteServerId, remoteKey)` in
registration order. -/
def scopedRegisterTools (targetServerId : String) :
    List RelayToolDefinition → List (String × String × String)
  | [] => []
  | toolDef :: rest =>
    let finalRegisteredName := sanitize toolDef.name
    if finalRegisteredName = "" then
      scopedRegisterTools targetServerId rest
    else
      (finalRegisteredName, targetServerId, toolDef.slug) ::
        scopedRegisterTools targetServerId rest

/-- Embedding of the unscoped-mode registration of one server's tools
(`src/unnamed/part_001`, `main`): the registered name is
`` `${sanitizedServerId}_${sanitizedToolName}`.substring(0, 64) `` where both
parts come from `sanitize`; a tool is skipped when either sanitized part is
empty; the handler forwards to `(serverId, toolDef.slug)`. -/
def unscopedRegisterServerTools (serverId : String) :
    List RelayToolDefinition → List (String × String × String)
  | [] => []
  | toolDef :: rest =>
    let sanitizedServerId := sanitize serverId
    let sanitizedToolName := sanitize toolDef.name
    if sanitizedServerId = "" ∨ sanitizedToolName = "" then
      unscopedRegisterServerTools serverId rest
    else
      (jsSubstring (sanitizedServerId ++ "_" ++ sanitizedToolName) 64,
        serverId, toolDef.slug) ::
        unscopedRegisterServerTools serverId rest

/-- Embedding of the full unscoped registration: all fetched servers are
processed in order, each contributing its tools via
`unscopedRegisterServerTools`. -/
def unscopedRegister : List RelayServerDefinition → List (String × String × String)
  | [] => []
  | serverDef :: rest =>
    unscopedRegisterServerTools serverDef.id serverDef.tools ++ unscopedRegister rest

/-- The local identifier produced by the unscoped registration for a server
id and a tool name. -/
def unscopedName (serverId toolName : String) : String :=
  jsSubstring (sanitize serverId ++ "_" ++ sanitize toolName) 64

/-- Outcomes of the three startup fetches performed by `main` in
`src/index.ts` when a target server id is configured: the server-definitions
fetch (an axios result whose data defaults to `[]` via `|| []`), the resources
fetch and the prompts fetch (whose data default to `[]` via
`response.data?.resources || []` and `response.data?.prompts || []`; the
value carried by `.ok` is that already-defaulted list). `.error` means the
corresponding `await axios...` rejected. -/
structure FetchOutcomes where
  defsResult : Except Unit (List RelayServerDefinition)
  resourcesResult : Except Unit (List ResourceDefinition)
  promptsResult : Except Unit (List PromptDefinition)

/-- The state of `main`'s local variables after the configuration/fetch phase
of `src/index.ts` (lines 194-276). `exited` records whether this phase
terminated the process; no branch of it does — every fetch error is caught
where it occurs. -/
structure StartupState where
  targetServerId : Option String
  serverDefinition : Option RelayServerDefinition
  targetServerResources : List ResourceDefinition
  serverPrompts : List PromptDefinition
  exited : Bool
deriving DecidableEq

/-- Embedding of the startup fetch phase of `main` in `src/index.ts`: with no
configured target nothing is fetched; with a target, a failed or empty
definitions fetch clears `targetServerId` (each in its own catch/else branch)
and the subsequent `if (targetServerId)` guards then skip the resources and
prompts fetches, so the relay proceeds with everything empty; when the
definitions fetch yields a server, failed secondary fetches leave their
category as the empty list. No branch exits the process. -/
def relayStartup (configTarget : Option String) (f : FetchOutcomes) : StartupState :=
  match configTarget with
  | none => ⟨none, none, [], [], false⟩
  | some tid =>
    match f.defsResult with
    | .error _ => ⟨none, none, [], [], false⟩
    | .ok serverDefs =>
      match serverDefs with
      | [] => ⟨none, none, [], [], false⟩
      | d :: _ =>
        let resources := match f.resourcesResult with
          | .error _ => []
          | .ok r => r
        let prompts := match f.promptsResult with
          | .error _ => []
          | .ok p => p
        ⟨some tid, some d, resources, prompts, false⟩

/-- The capability flags passed to the `McpServer` constructor: a category is
advertised (`{}` rather than `undefined`) exactly when the corresponding
fetched collection is non-empty
(`serverDefinition?.tools && serverDefinition.tools.length > 0`, and the two
length checks for resources and prompts). -/
structure Capabilities where
  tools : Bool
  resources : Bool
  prompts : Bool
deriving DecidableEq

/-- Embedding of the capability computation in the `McpServer` construction
of `src/index.ts` (lines 282-295). -/
def serverCapabilities (st : StartupState) : Capabilities :=
  ⟨(match st.serverDefinition with
    | some d => decide (d.tools.length > 0)
    | none => false),
   decide (st.targetServerResources.length > 0),
   decide (st.serverPrompts.length > 0)⟩

/-- The tools that were fetched at startup: those of the fetched server
definition, if any. -/
def fetchedTools (st : StartupState) : List RelayToolDefinition :=
  match st.serverDefinition with
  | some d => d.tools
  | none => []

/-- Embedding of the argument normalisation of the prompt handler in
`src/unnamed/part_002` (`promptHandler`): first, if the payload is truthy and
has a truthy `params` member of object type, the payload is replaced by
`args.params.arguments || \x7b\x7d`; then, if the (possibly unwrapped)
payload is a string, `JSON.parse` is attempted and the parsed value is used
when parsing succeeds (the string is kept when it fails). `JSON.parse` is an
external collaborator and is passed in as `parse` (returning `none` for a
parse failure). -/
def normalizePromptArgs (parse : String → Option Json) (args : Json) : Json :=
  let args1 :=
    if jsTruthy args && jsTruthy (jGet args "params") && (jGet args "params").isObjLike then
      (if jsTruthy (jGet (jGet args "params") "arguments") then
        jGet (jGet args "params") "arguments"
      else .jobj [])
    else args
  match args1 with
  | .jstr s =>
    match parse s with
    | some v => v
    | none => .jstr s
  | other => other

/-- The argument object actually placed in the forwarded request body
(`arguments: args || \x7b\x7d` after normalisation). -/
def forwardedPromptArguments (parse : String → Option Json) (args : Json) : Json :=
  let a := normalizePromptArgs parse args
  if jsTruthy a then a else .jobj []

/-- The body of the `POST /mcp/prompts/get` request built by the prompt
handler: `\x7bparams: \x7bname, arguments\x7d\x7d` with normalised
arguments. -/
def sentPromptBody (parse : String → Option Json) (promptName : String)
    (args : Json) : Json :=
  .jobj [("params", .jobj [("name", .jstr promptName),
    ("arguments", forwardedPromptArguments parse args)])]

/-- The normalised prompt result returned to the SDK:
`\x7bdescription?, messages[]\x7d`. The description is kept as a `Json`
value because the source copies `originalData.description` through untyped. -/
structure PromptResult where
  description : Option Json
  messages : List Json

/-- Embedding of the response normalisation of the prompt handler in
`src/unnamed/part_002`: the description starts from
`promptDef.description || undefined`; a body with a (truthy) `messages` array
passes it through, preferring the body's own truthy `description`; a body
that is itself an array is taken as the messages list; anything else
falls back to best-effort extraction, which in that branch always yields the
empty list, again preferring a truthy body `description`. -/
def normalizePromptResponse (promptDescription : Option String) (data : Json) :
    PromptResult :=
  let initDesc : Option Json :=
    match promptDescription with
    | some d => if d = "" then none else some (.jstr d)
    | none => none
  let bodyDesc : Option Json :=
    if jsTruthy (jGet data "description") then some (jGet data "description")
    else initDesc
  if jsTruthy (jGet data "messages") && (jGet data "messages").isArr then
    ⟨bodyDesc, (jGet data "messages").asArr⟩
  else if data.isArr then
    ⟨initDesc, data.asArr⟩
  else
    ⟨bodyDesc,
      if (jGet data "messages").isArr then (jGet data "messages").asArr
      else if data.isArr then data.asArr
      else []⟩

/-- Embedding of the prompt handler of `src/unnamed/part_002` as a function
of the injected remote call: the normalised arguments are sent in the request
body; a rejected request is rethrown (`.error`), a missing/falsy response
body raises (`.error`), and otherwise the normalised
`\x7bdescription?, messages\x7d` result is returned. -/
def promptHandler (parse : String → Option Json) (promptName : String)
    (promptDescription : Option String) (remote : Json → Except Unit Json)
    (args : Json) : Except Unit PromptResult :=
  match remote (sentPromptBody parse promptName args) with
  | .error _ => .error ()
  | .ok data =>
    if jsTruthy data then .ok (normalizePromptResponse promptDescription data)
    else .error ()

/-- Embedding of the parameter-schema construction shared by the relay
variants: the base schema from `param.type?.toLowerCase()` with `z.any()` as
the default, a `describe` call only when the description is truthy, and
`optional()` when `required` is false. -/
inductive BaseSchema where
  | sstring
  | snumber
  | sboolean
  | sany
deriving DecidableEq

/-- One translated field schema: base type, attached documentation, and
optionality. -/
structure FieldSchema where
  base : BaseSchema
  description : Option String
  optional : Bool
deriving DecidableEq

/-- JavaScript `s.toLowerCase()` (ASCII case mapping; the type tags compared
against are ASCII). -/
def jsToLowerCase (s : String) : String :=
  ⟨s.data.map Char.toLower⟩

/-- Translation of one `DbToolParameter` into its field schema, embedding the
`switch (param.type?.toLowerCase())` statement, the truthiness-guarded
`describe`, and the `optional()` wrapper of the source. -/
def translateParam (p : DbToolParameter) : FieldSchema :=
  let base : BaseSchema :=
    match p.type with
    | none => .sany
    | some t =>
      if jsToLowerCase t = "string" then .sstring
      else if jsToLowerCase t = "number" then .snumber
      else if jsToLowerCase t = "boolean" then .sboolean
      else .sany
  let descr : Option String :=
    match p.description with
    | some d => if d = "" then none else some d
    | none => none
  ⟨base, descr, !p.required⟩

/-- JavaScript object-property assignment `m[k] = v` on a model of an object
as an insertion-ordered association list: an existing key keeps its position
and gets the new value, a new key is appended. -/
def jsSetKey (m : List (String × FieldSchema)) (k : String) (v : FieldSchema) :
    List (String × FieldSchema) :=
  if m.any (fun kv => kv.1 == k) then
    m.map (fun kv => if kv.1 == k then (k, v) else kv)
  else
    m ++ [(k, v)]

/-- Embedding of the schema-map construction loop
(`toolDef.parameters.forEach(...)` with `parameters[param.name] = zodSchema`):
the map is keyed by each parameter's own name, passed through verbatim. -/
def translateParams (ps : List DbToolParameter) : List (String × FieldSchema) :=
  ps.foldl (fun m p => jsSetKey m p.name (translateParam p)) []

/-- String containment: `needle` occurs contiguously inside `hay`. -/
def strContains (needle hay : String) : Prop :=
  ∃ a b : List Char, hay.data = a ++ needle.data ++ b

/-- Truncation is the identity on strings that already fit. -/
theorem jsSubstring_of_length_le {s : String} {n : Nat} (h : s.data.length ≤ n) :
    jsSubstring s n = s :=
  String.ext (List.take_of_length_le h)

/-- A string's length is the length of its character list. -/
theorem string_length_eq (s : String) : s.length = s.data.length := rfl

/-- A middle factor of a three-part concatenation is contained in it. -/
theorem strContains_middle (x y z : String) : strContains y (x ++ y ++ z) :=
  ⟨x.data, z.data, by simp⟩

/-- Claim C4: `sanitize` replaces each character outside `[A-Za-z0-9_-]` with
an underscore and then truncates to 64 characters; it is a pure, deterministic
function (a Lean function of its argument alone) whose output contains only
characters from `[A-Za-z0-9_-]` and has length at most 64. -/
theorem C4_sanitize_legal_and_bounded (s : String) :
    (sanitize s).data
      = (s.data.map (fun c => if isIdentChar c then c else '_')).take 64 ∧
    (sanitize s).length ≤ 64 ∧
    ∀ c ∈ (sanitize s).data, isIdentChar c = true := by
  refine ⟨rfl, ?_, ?_⟩
  · have h1 : (sanitize s).length
        = ((s.data.map (fun c => if isIdentChar c then c else '_')).take 64).length :=
      rfl
    rw [h1, List.length_take]
    exact Nat.min_le_left _ _
  · intro c hc
    have hc2 : c ∈ s.data.map (fun c => if isIdentChar c then c else '_') :=
      List.mem_of_mem_take hc
    obtain ⟨d, _, rfl⟩ := List.mem_map.mp hc2
    by_cases h : isIdentChar d = true
    · rw [if_pos h]; exact h
    · rw [if_neg h]; decide

/-- Witness for C4 at a concrete input containing illegal characters. -/
theorem C4_witness :
    ('M' ∈ (sanitize "My Tool!").data) ∧ isIdentChar 'M' = true :=
  ⟨by decide, (C4_sanitize_legal_and_bounded "My Tool!").2.2 'M' (by decide)⟩

/-- Claim C10: whatever the outcome of the remote call (success, malformed
body, or any failure), `forwardToolCall` returns an envelope whose content is
exactly one item of type `"text"`; being a total function of the outcome, it
never throws. -/
theorem C10_single_text_content (slug : String) (o : RemoteOutcome) :
    ∃ txt : String, (forwardToolCall slug o).content = [⟨"text", txt⟩] := by
  cases o with
  | success data =>
    by_cases h : (jsTruthy data && (jGet data "result").isStr) = true
    · exact ⟨(jGet data "result").asStr, by simp [forwardToolCall, h]⟩
    · exact ⟨"Error: Invalid response format from tool execution server.",
        by simp [forwardToolCall, h]⟩
  | errorResponse status data => exact ⟨_, rfl⟩
  | errorNoResponse => exact ⟨_, rfl⟩
  | errorSetup message => exact ⟨_, rfl⟩
  | errorGeneric message => exact ⟨_, rfl⟩

/-- Claim C9: after the startup fetch phase, the local server advertises the
tools capability iff at least one tool was fetched, and independently the
resources and prompts capabilities iff at least one resource, respectively
prompt, was fetched. -/
theorem C9_capabilities_iff_nonempty (configTarget : Option String)
    (f : FetchOutcomes) :
    ((serverCapabilities (relayStartup configTarget f)).tools = true
      ↔ 0 < (fetchedTools (relayStartup configTarget f)).length) ∧
    ((serverCapabilities (relayStartup configTarget f)).resources = true
      ↔ 0 < (relayStartup configTarget f).targetServerResources.length) ∧
    ((serverCapabilities (relayStartup configTarget f)).prompts = true
      ↔ 0 < (relayStartup configTarget f).serverPrompts.length) := by
  rcases hst : relayStartup configTarget f with ⟨tid, sd, res, pr, ex⟩
  cases sd <;> simp [serverCapabilities, fetchedTools]

/-- Claim C3: when the remote call resolves and the body's `result` member is
a string, the local response is exactly one text content item carrying that
string, and `isError` is the remote flag when present, `false` when absent. -/
theorem C3_success_roundtrip (slug : String) (data : Json) (s : String)
    (h : jGet data "result" = .jstr s) :
    forwardToolCall slug (.success data)
      = ⟨[⟨"text", s⟩], jsCoalesceFalse (jGet data "isError")⟩ ∧
    (jGet data "isError" = .jnull →
      (forwardToolCall slug (.success data)).isError = .jbool false) ∧
    (∀ b, jGet data "isError" = .jbool b →
      (forwardToolCall slug (.success data)).isError = .jbool b) := by
  have htruthy : jsTruthy data = true := by
    cases data <;> simp_all [jGet, jsTruthy]
  have hcond : (jsTruthy data && (jGet data "result").isStr) = true := by
    rw [htruthy, h]; rfl
  have hmain : forwardToolCall slug (.success data)
      = ⟨[⟨"text", s⟩], jsCoalesceFalse (jGet data "isError")⟩ := by
    simp only [forwardToolCall]
    rw [if_pos hcond, h]
    rfl
  refine ⟨hmain, ?_, ?_⟩
  · intro h2
    rw [hmain]
    simp [jsCoalesceFalse, h2, Json.isNullish]
  · intro b hb
    rw [hmain]
    simp [jsCoalesceFalse, hb, Json.isNullish]

/-- Witness for C3: the round-trip scenario — remote
`\x7bresult:"X", isError:false\x7d` yields local content exactly `"X"` with
`isError:false`. -/
theorem C3_witness :
    forwardToolCall "echo"
        (.success (.jobj [("result", .jstr "X"), ("isError", .jbool false)]))
      = ⟨[⟨"text", "X"⟩], .jbool false⟩ :=
  (C3_success_roundtrip "echo"
    (.jobj [("result", .jstr "X"), ("isError", .jbool false)]) "X" rfl).1

/-- Claim C7: in scoped mode every tool is registered under
`sanitize(tool.name)` with forwarding key `(targetServerId, tool.slug)`, with
no deduplication (the number of registrations equals the number of tools with
a non-empty sanitized name, duplicates included); a tool whose sanitized name
is empty is skipped while the rest of the registration proceeds. -/
theorem C7_scoped_registration (targetServerId : String)
    (tools : List RelayToolDefinition) :
    (∀ t ∈ tools, sanitize t.name ≠ "" →
      (sanitize t.name, targetServerId, t.slug)
        ∈ scopedRegisterTools targetServerId tools) ∧
    (∀ e ∈ scopedRegisterTools targetServerId tools,
      ∃ t ∈ tools, sanitize t.name ≠ "" ∧
        e = (sanitize t.name, targetServerId, t.slug)) ∧
    (∀ t rest, sanitize t.name = "" →
      scopedRegisterTools targetServerId (t :: rest)
        = scopedRegisterTools targetServerId rest) ∧
    (scopedRegisterTools targetServerId tools).length
      = (tools.filter (fun t => sanitize t.name != "")).length := by
  refine ⟨?_, ?_, ?_, ?_⟩
  · intro t ht hne
    induction tools with
    | nil => cases ht
    | cons t0 rest ih =>
      rcases List.mem_cons.mp ht with rfl | hmem
      · rw [scopedRegisterTools, if_neg hne]
        exact List.mem_cons_self _ _
      · rw [scopedRegisterTools]
        by_cases h0 : sanitize t0.name = ""
        · rw [if_pos h0]; exact ih hmem
        · rw [if_neg h0]; exact List.mem_cons_of_mem _ (ih hmem)
  · intro e he
    induction tools with
    | nil => cases he
    | cons t0 rest ih =>
      rw [scopedRegisterTools] at he
      by_cases h0 : sanitize t0.name = ""
      · rw [if_pos h0] at he
        obtain ⟨t, ht, hp⟩ := ih he
        exact ⟨t, List.mem_cons_of_mem _ ht, hp⟩
      · rw [if_neg h0] at he
        rcases List.mem_cons.mp he with rfl | he2
        · exact ⟨t0, List.mem_cons_self _ _, h0, rfl⟩
        · obtain ⟨t, ht, hp⟩ := ih he2
          exact ⟨t, List.mem_cons_of_mem _ ht, hp⟩
  · intro t rest h0
    rw [scopedRegisterTools, if_pos h0]
  · induction tools with
    | nil => rfl
    | cons t0 rest ih =>
      rw [scopedRegisterTools, List.filter]
      by_cases h0 : sanitize t0.name = ""
      · rw [if_pos h0]
        simp only [h0]
        simpa using ih
      · rw [if_neg h0]
        have hb : (sanitize t0.name != "") = true := by
          simpa using h0
        simp only [hb]
        simpa using ih

/-- Witness for C7: Scenario A — server `srv1` with tool
`\x7bname:"Get Weather", slug:"get-weather"\x7d` is registered as
`Get_Weather` forwarding to `("srv1", "get-weather")`. -/
theorem C7_witness :
    ("Get_Weather", "srv1", "get-weather")
      ∈ scopedRegisterTools "srv1"
          [⟨"t1", "Get Weather", "get-weather", none, []⟩] ∧
    scopedRegisterTools "srv1" [⟨"t1", "Get Weather", "get-weather", none, []⟩]
      = [("Get_Weather", "srv1", "get-weather")] := by
  constructor
  · have h := (C7_scoped_registration "srv1"
      [⟨"t1", "Get Weather", "get-weather", none, []⟩]).1
      ⟨"t1", "Get Weather", "get-weather", none, []⟩
      (by decide) (by decide)
    simpa using h
  · decide

/-- Membership characterisation of one server's unscoped registrations. -/
theorem unscopedRegisterServerTools_mem (serverId : String)
    (tools : List RelayToolDefinition) (e : String × String × String) :
    e ∈ unscopedRegisterServerTools serverId tools ↔
      ∃ t ∈ tools, sanitize serverId ≠ "" ∧ sanitize t.name ≠ "" ∧
        e = (unscopedName serverId t.name, serverId, t.slug) := by
  induction tools with
  | nil => simp [unscopedRegisterServerTools]
  | cons t0 rest ih =>
    rw [unscopedRegisterServerTools]
    by_cases hc : sanitize serverId = "" ∨ sanitize t0.name = ""
    · rw [if_pos hc, ih]
      constructor
      · rintro ⟨t, ht, h1, h2, he⟩
        exact ⟨t, List.mem_cons_of_mem _ ht, h1, h2, he⟩
      · rintro ⟨t, ht, h1, h2, he⟩
        rcases List.mem_cons.mp ht with rfl | ht2
        · rcases hc with hc | hc
          · exact absurd hc h1
          · exact absurd hc h2
        · exact ⟨t, ht2, h1, h2, he⟩
    · have h1 : sanitize serverId ≠ "" := fun h => hc (Or.inl h)
      have h2 : sanitize t0.name ≠ "" := fun h => hc (Or.inr h)
      rw [if_neg hc]
      constructor
      · intro he
        rcases List.mem_cons.mp he with rfl | he2
        · exact ⟨t0, List.mem_cons_self _ _, h1, h2, rfl⟩
        · obtain ⟨t, ht, g1, g2, hp⟩ := ih.mp he2
          exact ⟨t, List.mem_cons_of_mem _ ht, g1, g2, hp⟩
      · rintro ⟨t, ht, g1, g2, hp⟩
        rcases List.mem_cons.mp ht with rfl | ht2
        · rw [hp]
          exact List.mem_cons_self _ _
        · exact List.mem_cons_of_mem _ (ih.mpr ⟨t, ht2, g1, g2, hp⟩)

/-- Membership characterisation of the full unscoped registration. -/
theorem unscopedRegister_mem (servers : List RelayServerDefinition)
    (e : String × String × String) :
    e ∈ unscopedRegister servers ↔
      ∃ sd ∈ servers, ∃ t ∈ sd.tools,
        sanitize sd.id ≠ "" ∧ sanitize t.name ≠ "" ∧
        e = (unscopedName sd.id t.name, sd.id, t.slug) := by
  induction servers with
  | nil => simp [unscopedRegister]
  | cons sd0 rest ih =>
    rw [unscopedRegister]
    rw [List.mem_append, unscopedRegisterServerTools_mem, ih]
    constructor
    · rintro (⟨t, ht, g1, g2, hp⟩ | ⟨sd, hsd, t, ht, g1, g2, hp⟩)
      · exact ⟨sd0, List.mem_cons_self _ _, t, ht, g1, g2, hp⟩
      · exact ⟨sd, List.mem_cons_of_mem _ hsd, t, ht, g1, g2, hp⟩
    · rintro ⟨sd, hsd, t, ht, g1, g2, hp⟩
      rcases List.mem_cons.mp hsd with rfl | hsd2
      · exact Or.inl ⟨t, ht, g1, g2, hp⟩
      · exact Or.inr ⟨sd, hsd2, t, ht, g1, g2, hp⟩

/-- Claim C2 (amended): in unscoped mode the registered identifier is
`sanitize(serverId) + "_" + sanitize(tool.name)` re-truncated to 64
characters (the tool's display name, not its slug), a tool being skipped when
either sanitized part is empty; identifiers of two servers whose sanitized
ids are distinct and of equal length are pairwise distinct provided neither
concatenation overflows 64 characters, and within one server tools with
distinct sanitized names get distinct identifiers under the same
no-truncation proviso. -/
theorem C2_unscoped_registration :
    (∀ (servers : List RelayServerDefinition) (e : String × String × String),
      e ∈ unscopedRegister servers ↔
        ∃ sd ∈ servers, ∃ t ∈ sd.tools,
          sanitize sd.id ≠ "" ∧ sanitize t.name ≠ "" ∧
          e = (unscopedName sd.id t.name, sd.id, t.slug)) ∧
    (∀ sid1 sid2 n1 n2 : String,
      sanitize sid1 ≠ sanitize sid2 →
      (sanitize sid1).length = (sanitize sid2).length →
      (sanitize sid1 ++ "_" ++ sanitize n1).length ≤ 64 →
      (sanitize sid2 ++ "_" ++ sanitize n2).length ≤ 64 →
      unscopedName sid1 n1 ≠ unscopedName sid2 n2) ∧
    (∀ sid n1 n2 : String,
      sanitize n1 ≠ sanitize n2 →
      (sanitize sid ++ "_" ++ sanitize n1).length ≤ 64 →
      (sanitize sid ++ "_" ++ sanitize n2).length ≤ 64 →
      unscopedName sid n1 ≠ unscopedName sid n2) := by
  refine ⟨unscopedRegister_mem, ?_, ?_⟩
  · intro sid1 sid2 n1 n2 hne hlen h1 h2 heq
    have e1 : unscopedName sid1 n1 = sanitize sid1 ++ "_" ++ sanitize n1 :=
      jsSubstring_of_length_le (by rw [← string_length_eq]; exact h1)
    have e2 : unscopedName sid2 n2 = sanitize sid2 ++ "_" ++ sanitize n2 :=
      jsSubstring_of_length_le (by rw [← string_length_eq]; exact h2)
    rw [e1, e2] at heq
    have hd := congrArg String.data heq
    simp only [String.data_append, List.append_assoc] at hd
    have hdlen : (sanitize sid1).data.length = (sanitize sid2).data.length := by
      rw [← string_length_eq, ← string_length_eq]; exact hlen
    have t1 : ((sanitize sid1).data ++ ("_".data ++ (sanitize n1).data)).take
        (sanitize sid1).data.length = (sanitize sid1).data :=
      List.take_left _ _
    have t2 : ((sanitize sid2).data ++ ("_".data ++ (sanitize n2).data)).take
        (sanitize sid1).data.length = (sanitize sid2).data := by
      rw [hdlen]; exact List.take_left _ _
    have : (sanitize sid1).data = (sanitize sid2).data := by
      rw [← t1, hd, t2]
    exact hne (String.ext this)
  · intro sid n1 n2 hne h1 h2 heq
    have e1 : unscopedName sid n1 = sanitize sid ++ "_" ++ sanitize n1 :=
      jsSubstring_of_length_le (by rw [← string_length_eq]; exact h1)
    have e2 : unscopedName sid n2 = sanitize sid ++ "_" ++ sanitize n2 :=
      jsSubstring_of_length_le (by rw [← string_length_eq]; exact h2)
    rw [e1, e2] at heq
    have hd := congrArg String.data heq
    simp only [String.data_append, List.append_assoc] at hd
    have hd2 := List.append_cancel_left hd
    have hd3 := List.append_cancel_left hd2
    exact hne (String.ext hd3)

/-- Witness for C2: Scenario B with the tool named after its slug — servers
`srv1` and `srv2` each exposing a tool `ping` yield the distinct identifiers
`srv1_ping` and `srv2_ping`. -/
theorem C2_witness :
    unscopedName "srv1" "ping" ≠ unscopedName "srv2" "ping" ∧
    unscopedRegister
        [⟨"srv1", "Server One", none, [⟨"t1", "ping", "ping", none, []⟩]⟩,
         ⟨"srv2", "Server Two", none, [⟨"t2", "ping", "ping", none, []⟩]⟩]
      = [("srv1_ping", "srv1", "ping"), ("srv2_ping", "srv2", "ping")] := by
  constructor
  · exact C2_unscoped_registration.2.1 "srv1" "srv2" "ping" "ping"
      (by decide) (by decide) (by decide) (by decide)
  · decide

/-- Counterexample for C2 as stated: the registered identifier is built from
the tool display name, not the slug — the tool
`\x7bname:"Get Weather", slug:"get-weather"\x7d` on server `srv1` registers
as `srv1_Get_Weather`, not the claimed `srv1_get-weather`; moreover two
distinct server ids (`a b` and `a_b`) with identically-slugged tools collide
on the same local identifier `a_b_c`. -/
theorem C2_counterexample :
    unscopedRegister
        [⟨"srv1", "Weather", none, [⟨"t1", "Get Weather", "get-weather", none, []⟩]⟩]
      = [("srv1_Get_Weather", "srv1", "get-weather")] ∧
    ("srv1_Get_Weather" : String) ≠ "srv1_get-weather" ∧
    unscopedRegister
        [⟨"a b", "S1", none, [⟨"t1", "c", "ping", none, []⟩]⟩,
         ⟨"a_b", "S2", none, [⟨"t2", "c", "ping", none, []⟩]⟩]
      = [("a_b_c", "a b", "ping"), ("a_b_c", "a_b", "ping")] ∧
    ("a b" : String) ≠ "a_b" := by
  refine ⟨by decide, by decide, by decide, by decide⟩

/-- Claim C5 (amended): a failure of the primary server-definitions fetch is
caught where it occurs and is not fatal — the target id is cleared and
startup proceeds with no server definition, no resources and no prompts
(the process does not exit); failures of the secondary resources and prompts
fetches degrade to an empty list for that category only, without aborting. -/
theorem C5_fetch_failure_degrades (tid : String) (f : FetchOutcomes) :
    (f.defsResult = .error () →
      relayStartup (some tid) f = ⟨none, none, [], [], false⟩) ∧
    (∀ d rest, f.defsResult = .ok (d :: rest) →
      (relayStartup (some tid) f).exited = false ∧
      (relayStartup (some tid) f).serverDefinition = some d ∧
      (f.resourcesResult = .error () →
        (relayStartup (some tid) f).targetServerResources = []) ∧
      (f.promptsResult = .error () →
        (relayStartup (some tid) f).serverPrompts = [])) := by
  obtain ⟨fd, fr, fp⟩ := f
  constructor
  · intro h
    simp only at h
    rw [relayStartup, h]
  · intro d rest h
    simp only at h
    rw [relayStartup, h]
    refine ⟨rfl, rfl, ?_, ?_⟩
    · intro hr
      simp only at hr
      rw [hr]
    · intro hp
      simp only at hp
      rw [hp]

/-- Witness for C5: a failed definitions fetch leaves a degraded, running
state, and failed secondary fetches leave empty categories beside a fetched
definition. -/
theorem C5_witness :
    relayStartup (some "srv1") ⟨.error (), .ok [], .ok []⟩
      = ⟨none, none, [], [], false⟩ ∧
    (relayStartup (some "srv1")
        ⟨.ok [⟨"srv1", "Weather", none, []⟩], .error (), .error ()⟩).serverDefinition
      = some ⟨"srv1", "Weather", none, []⟩ ∧
    (relayStartup (some "srv1")
        ⟨.ok [⟨"srv1", "Weather", none, []⟩], .error (), .error ()⟩).targetServerResources
      = [] ∧
    (relayStartup (some "srv1")
        ⟨.ok [⟨"srv1", "Weather", none, []⟩], .error (), .error ()⟩).serverPrompts
      = [] := by
  refine ⟨(C5_fetch_failure_degrades "srv1" ⟨.error (), .ok [], .ok []⟩).1 rfl,
    ?_, ?_, ?_⟩
  · exact ((C5_fetch_failure_degrades "srv1"
      ⟨.ok [⟨"srv1", "Weather", none, []⟩], .error (), .error ()⟩).2
      ⟨"srv1", "Weather", none, []⟩ [] rfl).2.1
  · exact ((C5_fetch_failure_degrades "srv1"
      ⟨.ok [⟨"srv1", "Weather", none, []⟩], .error (), .error ()⟩).2
      ⟨"srv1", "Weather", none, []⟩ [] rfl).2.2.1 rfl
  · exact ((C5_fetch_failure_degrades "srv1"
      ⟨.ok [⟨"srv1", "Weather", none, []⟩], .error (), .error ()⟩).2
      ⟨"srv1", "Weather", none, []⟩ [] rfl).2.2.2 rfl

/-- Counterexample for C5 as stated: when the primary definitions fetch
fails, the startup phase does not exit the process — it continues with the
target cleared and everything empty, contradicting the claimed fatality. -/
theorem C5_counterexample :
    (relayStartup (some "srv1") ⟨.error (), .ok [], .ok []⟩).exited = false ∧
    relayStartup (some "srv1") ⟨.error (), .ok [], .ok []⟩
      = ⟨none, none, [], [], false⟩ := by
  exact ⟨by decide, by decide⟩

/-- Assigning a fresh key appends it at the end of the object model. -/
theorem jsSetKey_not_mem (m : List (String × FieldSchema)) (k : String)
    (v : FieldSchema) (h : ∀ kv ∈ m, kv.1 ≠ k) :
    jsSetKey m k v = m ++ [(k, v)] := by
  rw [jsSetKey, if_neg]
  intro hany
  obtain ⟨kv, hkv, hbe⟩ := List.any_eq_true.mp hany
  exact h kv hkv (by simpa using hbe)

/-- Generalised form of the schema-map construction: starting from any
accumulator whose keys avoid the remaining parameter names, the loop appends
one verbatim-keyed entry per parameter. -/
theorem translateParams_foldl (ps : List DbToolParameter) :
    ∀ acc : List (String × FieldSchema),
      (∀ q ∈ ps, ∀ kv ∈ acc, kv.1 ≠ q.name) →
      (ps.map (fun q => q.name)).Nodup →
      List.foldl (fun m p => jsSetKey m p.name (translateParam p)) acc ps
        = acc ++ ps.map (fun q => (q.name, translateParam q)) := by
  induction ps with
  | nil => intro acc _ _; simp
  | cons p ps ih =>
    intro acc hacc hnd
    rw [List.foldl_cons,
      jsSetKey_not_mem acc p.name _ (hacc p (List.mem_cons_self _ _))]
    have hnd1 := hnd
    rw [List.map_cons] at hnd1
    obtain ⟨hp, hnd2⟩ := List.nodup_cons.mp hnd1
    have hacc2 : ∀ q ∈ ps, ∀ kv ∈ acc ++ [(p.name, translateParam p)],
        kv.1 ≠ q.name := by
      intro q hq kv hkv
      rcases List.mem_append.mp hkv with hkv | hkv
      · exact hacc q (List.mem_cons_of_mem _ hq) kv hkv
      · have hkv2 : kv = (p.name, translateParam p) := by simpa using hkv
        rw [hkv2]
        intro hcontra
        have hcontra2 : p.name = q.name := hcontra
        exact hp (by rw [hcontra2]; exact List.mem_map_of_mem _ hq)
    rw [ih _ hacc2 hnd2]
    simp

/-- Claim C6 (amended): the schema translator matches the type tag after
lowercasing — a tag whose lowercase form is `string`/`number`/`boolean` maps
to the corresponding schema, and any other or missing tag maps to the
accept-anything schema without error; `required=false` makes the field
optional; a non-empty description is attached (a `null` or empty one is not);
and for parameter lists with distinct names the schema map has exactly one
field per parameter, keyed by the parameter's own name verbatim. -/
theorem C6_schema_translation :
    (∀ p : DbToolParameter,
      (p.type = none → (translateParam p).base = .sany) ∧
      (∀ t, p.type = some t →
        ((jsToLowerCase t = "string" → (translateParam p).base = .sstring) ∧
         (jsToLowerCase t = "number" → (translateParam p).base = .snumber) ∧
         (jsToLowerCase t = "boolean" → (translateParam p).base = .sboolean) ∧
         (jsToLowerCase t ≠ "string" → jsToLowerCase t ≠ "number" →
          jsToLowerCase t ≠ "boolean" → (translateParam p).base = .sany))) ∧
      ((translateParam p).optional = !p.required) ∧
      (∀ d, p.description = some d → d ≠ "" →
        (translateParam p).description = some d) ∧
      ((p.description = none ∨ p.description = some "") →
        (translateParam p).description = none)) ∧
    (∀ ps : List DbToolParameter,
      (ps.map (fun q => q.name)).Nodup →
      translateParams ps = ps.map (fun q => (q.name, translateParam q))) := by
  constructor
  · intro p
    obtain ⟨nm, desc, ty, req⟩ := p
    refine ⟨?_, ?_, ?_, ?_, ?_⟩
    · intro h
      simp only at h
      subst h
      simp [translateParam]
    · intro t ht
      simp only at ht
      subst ht
      refine ⟨?_, ?_, ?_, ?_⟩
      · intro he; simp [translateParam, he]
      · intro he; simp [translateParam, he]
      · intro he; simp [translateParam, he]
      · intro h1 h2 h3; simp [translateParam, h1, h2, h3]
    · simp [translateParam]
    · intro d hd hne
      simp only at hd
      subst hd
      simp [translateParam, hne]
    · rintro (h | h) <;> simp only at h <;> subst h <;> simp [translateParam]
  · intro ps hnd
    exact translateParams_foldl ps [] (by intro q _ kv hkv; cases hkv) hnd

/-- Witness for C6: a `string`-typed described required parameter translates
to a required, described string field keyed by its own name, and a
`Number`-tagged parameter is matched case-insensitively. -/
theorem C6_witness :
    translateParams [⟨"city", some "The city", some "string", true⟩]
      = [("city", ⟨.sstring, some "The city", false⟩)] ∧
    (translateParam ⟨"temp", none, some "Number", true⟩).base = .snumber := by
  constructor
  · have h := C6_schema_translation.2
      [⟨"city", some "The city", some "string", true⟩] (by decide)
    rw [h]; rfl
  · exact ((C6_schema_translation.1
      ⟨"temp", none, some "Number", true⟩).2.1 "Number" rfl).2.1 (by decide)

/-- Counterexample for C6 as stated: the tag `STRING` is an "other" tag under
the claim's reading, yet it maps to the string schema (matching is
case-insensitive), not to the accept-anything schema; and a present but empty
description is not attached to the field. -/
theorem C6_counterexample :
    (translateParam ⟨"p", none, some "STRING", true⟩).base = .sstring ∧
    BaseSchema.sstring ≠ BaseSchema.sany ∧
    (translateParam ⟨"q", some "", some "string", true⟩).description = none := by
  decide

/-- A truncated string never exceeds the truncation bound. -/
theorem jsSubstring_length_le (s : String) (n : Nat) :
    (jsSubstring s n).length ≤ n := by
  have h : (jsSubstring s n).length = (s.data.take n).length := rfl
  rw [h, List.length_take]
  exact Nat.min_le_left _ _

/-- Claim C1 (amended): on any remote failure `forwardToolCall` does not
throw — it returns an envelope with `isError:true` and a single text content
whose text is the concatenation of the error message (naming the slug, and
the HTTP status when a response was received) with the detail string, the
whole truncated to its first 1000 characters; whenever that concatenation
fits in 1000 characters the text therefore contains the slug, the detail,
and the status when known. -/
theorem C1_failure_envelope (slug : String) (o : RemoteOutcome)
    (hfail : o.isFailure = true) :
    (forwardToolCall slug o).isError = .jbool true ∧
    (forwardToolCall slug o).content
      = [⟨"text", jsSubstring (toolErrorText slug o) 1000⟩] ∧
    (∀ item ∈ (forwardToolCall slug o).content, item.text.length ≤ 1000) ∧
    ((toolErrorText slug o).length ≤ 1000 →
      strContains slug (jsSubstring (toolErrorText slug o) 1000) ∧
      strContains (toolErrorDetail o) (jsSubstring (toolErrorText slug o) 1000) ∧
      (∀ status data, o = .errorResponse status data →
        strContains (toString status)
          (jsSubstring (toolErrorText slug o) 1000))) := by
  have henv : forwardToolCall slug o
      = ⟨[⟨"text", jsSubstring (toolErrorText slug o) 1000⟩], .jbool true⟩ := by
    cases o with
    | success data => simp [RemoteOutcome.isFailure] at hfail
    | errorResponse status data => rfl
    | errorNoResponse => rfl
    | errorSetup message => rfl
    | errorGeneric message => rfl
  refine ⟨by rw [henv], by rw [henv], ?_, ?_⟩
  · intro item hitem
    rw [henv] at hitem
    have hi : item = ⟨"text", jsSubstring (toolErrorText slug o) 1000⟩ := by
      simpa using hitem
    rw [hi]
    exact jsSubstring_length_le _ _
  · intro hle
    have hid : jsSubstring (toolErrorText slug o) 1000 = toolErrorText slug o :=
      jsSubstring_of_length_le (by rw [← string_length_eq]; exact hle)
    rw [hid]
    refine ⟨?_, ?_, ?_⟩
    · cases o with
      | success data => simp [RemoteOutcome.isFailure] at hfail
      | errorResponse status data =>
        refine ⟨"Error executing tool \x27".data,
          ("\x27 (Status: ".data ++ ((toString status).data ++ (").".data ++
            (" ".data ++ (toolErrorDetail (.errorResponse status data)).data)))), ?_⟩
        simp only [toolErrorText, toolErrorMessage, String.data_append,
          List.append_assoc]
      | errorNoResponse =>
        refine ⟨"Error executing tool \x27".data,
          ("\x27.".data ++ (" ".data ++ (toolErrorDetail .errorNoResponse).data)), ?_⟩
        simp only [toolErrorText, toolErrorMessage, String.data_append,
          List.append_assoc]
      | errorSetup message =>
        refine ⟨"Error executing tool \x27".data,
          ("\x27.".data ++ (" ".data ++ (toolErrorDetail (.errorSetup message)).data)), ?_⟩
        simp only [toolErrorText, toolErrorMessage, String.data_append,
          List.append_assoc]
      | errorGeneric message =>
        refine ⟨"Error executing tool \x27".data,
          ("\x27.".data ++ (" ".data ++ (toolErrorDetail (.errorGeneric message)).data)), ?_⟩
        simp only [toolErrorText, toolErrorMessage, String.data_append,
          List.append_assoc]
    · refine ⟨(toolErrorMessage slug o ++ " ").data, [], ?_⟩
      simp only [toolErrorText, String.data_append, List.append_assoc,
        List.append_nil]
    · rintro status data rfl
      refine ⟨"Error executing tool \x27".data ++ (slug.data ++ "\x27 (Status: ".data),
        (").".data ++ (" ".data ++
          (toolErrorDetail (.errorResponse status data)).data)), ?_⟩
      simp only [toolErrorText, toolErrorMessage, String.data_append,
        List.append_assoc]

/-- Witness for C1: a timeout/network failure (`errorNoResponse`) for tool
`my-tool` yields an `isError:true` envelope whose text contains the slug and
the no-response detail. -/
theorem C1_witness :
    (forwardToolCall "my-tool" .errorNoResponse).isError = .jbool true ∧
    strContains "my-tool"
      (jsSubstring (toolErrorText "my-tool" .errorNoResponse) 1000) ∧
    strContains (toolErrorDetail .errorNoResponse)
      (jsSubstring (toolErrorText "my-tool" .errorNoResponse) 1000) := by
  have h := C1_failure_envelope "my-tool" .errorNoResponse rfl
  exact ⟨h.1, (h.2.2.2 (by decide)).1, (h.2.2.2 (by decide)).2.1⟩

/-- Truncating the error text built from a 1000-character slug keeps the
22-character message head and only 978 of the slug's characters. -/
theorem take1000_long_slug (R : List Char) :
    (("Error executing tool \x27".data : List Char)
        ++ (List.replicate 1000 'a' ++ R)).take 1000
      = "Error executing tool \x27".data ++ List.replicate 978 'a' := by
  rw [List.take_append_eq_append_take]
  have hlenP : ("Error executing tool \x27".data : List Char).length = 22 := by
    decide
  rw [List.take_of_length_le (by rw [hlenP]; decide), hlenP]
  have h978 : (1000 : Nat) - 22 = 978 := by decide
  rw [h978, List.take_append_of_le_length
    (by rw [List.length_replicate]; decide), List.take_replicate]
  have hmin : min 978 1000 = 978 := by decide
  rw [hmin]

/-- Counterexample for C1 as stated: with a 1000-character slug the whole
message is truncated to 1000 characters, so the returned text contains
neither the slug nor the known HTTP status `500` — the claimed containment
fails even though the envelope shape is as described. -/
theorem C1_counterexample :
    (forwardToolCall (String.mk (List.replicate 1000 'a'))
        (.errorResponse 500 (.jobj []))).content
      = [⟨"text", jsSubstring (toolErrorText (String.mk (List.replicate 1000 'a'))
          (.errorResponse 500 (.jobj []))) 1000⟩] ∧
    ¬ strContains "500"
        (jsSubstring (toolErrorText (String.mk (List.replicate 1000 'a'))
          (.errorResponse 500 (.jobj []))) 1000) ∧
    ¬ strContains (String.mk (List.replicate 1000 'a'))
        (jsSubstring (toolErrorText (String.mk (List.replicate 1000 'a'))
          (.errorResponse 500 (.jobj []))) 1000) := by
  have h1 : (toolErrorText (String.mk (List.replicate 1000 'a'))
        (.errorResponse 500 (.jobj []))).data
      = "Error executing tool \x27".data ++ (List.replicate 1000 'a'
          ++ ("\x27 (Status: ".data ++ ((toString (500 : Nat)).data
            ++ (").".data ++ (" ".data
              ++ (toolErrorDetail (.errorResponse 500 (.jobj []))).data))))) := by
    simp only [toolErrorText, toolErrorMessage, String.data_append,
      List.append_assoc]
  have hdata : (jsSubstring (toolErrorText (String.mk (List.replicate 1000 'a'))
        (.errorResponse 500 (.jobj []))) 1000).data
      = "Error executing tool \x27".data ++ List.replicate 978 'a' := by
    have h0 : (jsSubstring (toolErrorText (String.mk (List.replicate 1000 'a'))
          (.errorResponse 500 (.jobj []))) 1000).data
        = (toolErrorText (String.mk (List.replicate 1000 'a'))
            (.errorResponse 500 (.jobj []))).data.take 1000 := rfl
    rw [h0, h1, take1000_long_slug]
  refine ⟨rfl, ?_, ?_⟩
  · rintro ⟨a, b, hab⟩
    have h5m : '5' ∈ ("500".data : List Char) := by decide
    have h5 : '5' ∈ (a ++ ("500".data : List Char)) ++ b :=
      List.mem_append.mpr (Or.inl (List.mem_append.mpr (Or.inr h5m)))
    rw [← hab, hdata] at h5
    rcases List.mem_append.mp h5 with h | h
    · exact absurd h (by decide)
    · exact absurd (List.eq_of_mem_replicate h) (by decide)
  · rintro ⟨a, b, hab⟩
    have hL : ((("Error executing tool \x27".data : List Char))
        ++ List.replicate 978 'a').length = 1000 := by
      rw [List.length_append, List.length_replicate]
      decide
    have hlen := congrArg List.length hab
    rw [hdata, hL] at hlen
    simp only [List.length_append] at hlen
    have hslen : (String.mk (List.replicate 1000 'a')).data.length = 1000 := by
      show (List.replicate 1000 'a').length = 1000
      rw [List.length_replicate]
    rw [hslen] at hlen
    have ha : a = [] := List.length_eq_zero.mp (by omega)
    have hb : b = [] := List.length_eq_zero.mp (by omega)
    subst ha
    subst hb
    rw [hdata, List.nil_append, List.append_nil] at hab
    have hs2 : (String.mk (List.replicate 1000 'a')).data
        = List.replicate 1000 'a' := rfl
    rw [hs2] at hab
    have htake := congrArg (List.take 22) hab
    rw [List.take_append_of_le_length (by decide), List.take_replicate]
      at htake
    exact absurd htake (by decide)

/-- Claim C8: prompt argument payloads are normalised before forwarding — a
JSON-encoded string payload is parsed and the parsed object forwarded, a
payload nested under a `params.arguments` wrapper is unwrapped (with a
missing `arguments` member turning into the empty object); the remote
response is normalised to `\x7bdescription?, messages[]\x7d` with a
`messages` array passed through, an array body taken as the messages, and an
empty messages list when nothing can be extracted; a rejected request or a
missing response body propagates as a hard error. -/
theorem C8_prompt_normalization :
    (∀ (parse : String → Option Json) (s : String) (v : Json),
      parse s = some v → jsTruthy v = true →
      forwardedPromptArguments parse (.jstr s) = v) ∧
    (∀ (parse : String → Option Json) (v : Json),
      jsTruthy v = true → v.isStr = false →
      forwardedPromptArguments parse
        (.jobj [("params", .jobj [("arguments", v)])]) = v) ∧
    (∀ parse : String → Option Json,
      normalizePromptArgs parse (.jobj [("params", .jobj [])]) = .jobj []) ∧
    (∀ (pd : Option String) (data : Json) (l : List Json),
      jGet data "messages" = .jarr l →
      (normalizePromptResponse pd data).messages = l) ∧
    (∀ (pd : Option String) (l : List Json),
      (normalizePromptResponse pd (.jarr l)).messages = l) ∧
    (∀ (pd : Option String) (data : Json),
      data.isArr = false → (jGet data "messages").isArr = false →
      (normalizePromptResponse pd data).messages = []) ∧
    (∀ (parse : String → Option Json) (promptName : String) (pd : Option String)
      (remote : Json → Except Unit Json) (args : Json),
      remote (sentPromptBody parse promptName args) = .error () →
      promptHandler parse promptName pd remote args = .error ()) ∧
    (∀ (parse : String → Option Json) (promptName : String) (pd : Option String)
      (remote : Json → Except Unit Json) (args : Json),
      remote (sentPromptBody parse promptName args) = .ok .jnull →
      promptHandler parse promptName pd remote args = .error ()) := by
  refine ⟨?_, ?_, ?_, ?_, ?_, ?_, ?_, ?_⟩
  · intro parse s v hp hv
    have hc : (jsTruthy (Json.jstr s) && jsTruthy (jGet (Json.jstr s) "params")
        && (jGet (Json.jstr s) "params").isObjLike) = false := by
      rw [show jGet (Json.jstr s) "params" = Json.jnull from rfl]
      simp [jsTruthy]
    have hval : normalizePromptArgs parse (.jstr s) = v := by
      unfold normalizePromptArgs
      rw [hc]
      simp [hp]
    unfold forwardedPromptArguments
    rw [hval]
    show (if jsTruthy v = true then v else Json.jobj []) = v
    rw [hv]
    simp
  · intro parse v hv hs
    have hval : normalizePromptArgs parse
        (.jobj [("params", .jobj [("arguments", v)])]) = v := by
      have h2 : normalizePromptArgs parse
          (.jobj [("params", .jobj [("arguments", v)])])
          = (match (if jsTruthy v then v else Json.jobj []) with
             | Json.jstr s =>
               (match parse s with | some u => u | none => Json.jstr s)
             | u => u) := rfl
      rw [h2, hv]
      cases v with
      | jstr s => simp [Json.isStr] at hs
      | jnull => simp [jsTruthy] at hv
      | jbool b => simp
      | jnum n => simp
      | jarr l => simp
      | jobj kvs => simp
    unfold forwardedPromptArguments
    rw [hval]
    show (if jsTruthy v = true then v else Json.jobj []) = v
    rw [hv]
    simp
  · intro parse
    rfl
  · intro pd data l h
    simp [normalizePromptResponse, h, jsTruthy, Json.isArr, Json.asArr]
  · intro pd l
    simp [normalizePromptResponse, jGet, jsTruthy, Json.isArr, Json.asArr]
  · intro pd data h1 h2
    simp [normalizePromptResponse, h1, h2, Bool.and_eq_true]
  · intro parse promptName pd remote args h
    simp [promptHandler, h]
  · intro parse promptName pd remote args h
    simp [promptHandler, h, jsTruthy]

/-- Witness for C8: Scenario D — the prompt argument payload arriving as the
JSON string of `\x7bx:1\x7d` is parsed and forwarded as the object
`\x7bx:1\x7d`. -/
theorem C8_witness :
    forwardedPromptArguments
        (fun s => if s = "\x7b\"x\":1\x7d"
          then some (Json.jobj [("x", Json.jnum 1)]) else none)
        (.jstr "\x7b\"x\":1\x7d")
      = Json.jobj [("x", Json.jnum 1)] :=
  C8_prompt_normalization.1 _ _ _ (by rw [if_pos rfl]) rfl
